import Mathlib

/-!
Verification of the game-session engine of the `kien-quoc` repository.

The definitions below are a shallow embedding of the Python sources:
`backend/game/scoring.py`, `backend/game/schemas.py`, `backend/game/service.py`,
`backend/websocket/state_filter.py`, `backend/websocket/manager.py`, together
with the static configuration in `backend/config/*.py`.

Modelling conventions:
- Python `int` is `Int` (arbitrary precision, as in Python).
- Python `float` is `Rat`; the float literals appearing in the configuration
  (1.5, 1.8, 2.5, 1.0) and the arithmetic performed on them are modelled
  exactly as rational arithmetic.
- Python `dict` is an ordered association list; `dictSet` overwrites the value
  of an existing key in place (keeping its position) and otherwise appends,
  which is precisely CPython's insertion-order semantics.
- `datetime.now()` is an abstract tick passed in as a `Nat` parameter `now`.
- A Python function that can `raise` is modelled as returning an error value;
  `place_resource` / `submit_turn` return `Option String × Room` where the
  first component is `some message` exactly on the raising paths (all of which
  occur before any mutation in the source), and the second component is the
  room as left by the call.
-/

namespace KienQuoc

/-! ## Python dict model (ordered association lists) -/

/-- Lookup in an ordered association list (Python `d.get(k)` / `d[k]`). -/
def dictLookup {α β : Type} [DecidableEq α] : List (α × β) → α → Option β
  | [], _ => none
  | (k', v) :: rest, k => if k' = k then some v else dictLookup rest k

/-- `d[k] = v` on a Python dict: overwrite in place if the key exists
(keeping its position), otherwise append. -/
def dictSet {α β : Type} [DecidableEq α] : List (α × β) → α → β → List (α × β)
  | [], k, v => [(k, v)]
  | (k', v') :: rest, k, v =>
      if k' = k then (k, v) :: rest else (k', v') :: dictSet rest k v

/-- Python `d.get(k, default)`. -/
def dictGetD {α β : Type} [DecidableEq α] (d : List (α × β)) (k : α) (dflt : β) : β :=
  (dictLookup d k).getD dflt

/-- Python `d[k] += v` applied for every entry of `src` in order; a missing
key raises `KeyError` (modelled as an `Except.error`). -/
def dictAddAll {α : Type} [DecidableEq α] :
    List (α × Rat) → List (α × Rat) → Except String (List (α × Rat))
  | d, [] => .ok d
  | d, (k, v) :: rest =>
      match dictLookup d k with
      | none => .error "KeyError"
      | some old => dictAddAll (dictSet d k (old + v)) rest

/-! ## Enums (`backend/room/schemas.py`, `backend/config/scoring_config.py`) -/

/-- `RoomStatus` enum. -/
inductive RoomStatus where
  | waiting | playing | paused | finished
  deriving DecidableEq, Repr

/-- `GamePhase` enum. -/
inductive GamePhase where
  | event | action | resolution | result
  deriving DecidableEq, Repr

/-- `ClientRole` enum. -/
inductive ClientRole where
  | host | player | spectator
  deriving DecidableEq, Repr

/-- `CellType` enum (`backend/config/scoring_config.py`). -/
inductive CellType where
  | competitive | synergy | shared | cooperation | project
  deriving DecidableEq, Repr

/-! ## Configuration constants

`backend/config/game_config.py` and `backend/config/scoring_config.py`. -/

def MAX_TURNS : Int := 8
def RESOURCES_PER_TURN : Int := 14
def PHASE_EVENT_DURATION : Int := 15
def PHASE_ACTION_DURATION : Int := 60
def PHASE_RESOLUTION_DURATION : Int := 3
def PHASE_RESULT_DURATION : Int := 15
def INDEX_MAXIMUM : Int := 30

/-- `GameConfig.MAINTENANCE_COST` (dict, in insertion order). -/
def MAINTENANCE_COST : List (String × Int) :=
  [("economy", 1), ("society", 1), ("culture", 1),
   ("integration", 1), ("environment", 1), ("science", 1)]

/-- `ScoringConfig.CELL_MULTIPLIERS` — all five cell types are present in the
dict, so `dict.get(cell.type, 1.0)` never falls back to the default. -/
def CELL_MULTIPLIERS : CellType → Rat
  | .competitive => 3 / 2
  | .synergy => 9 / 5
  | .shared => 3 / 2
  | .cooperation => 5 / 2
  | .project => 1

def COOPERATION_MIN_TEAMS : Nat := 2
def PROJECT_SUCCESS_BONUS_PER_RP : Rat := 1

def PROJECT_CELL_ID : String := "project-center"

/-! ## Data model (`backend/game/schemas.py`, `backend/room/schemas.py`) -/

/-- `CellPlacement` — one team's stake on one board cell. -/
structure CellPlacement where
  team_id : String
  amount : Int
  deriving DecidableEq, Repr

/-- `Placement` — a team's placement record (cell id → amount). -/
structure Placement where
  cell_id : String
  amount : Int
  deriving DecidableEq, Repr

/-- `NationalIndices` — the six bounded national indices. -/
structure NationalIndices where
  economy : Int := 10
  society : Int := 10
  culture : Int := 10
  integration : Int := 10
  environment : Int := 10
  science : Int := 10
  deriving DecidableEq, Repr

/-- One step of `NationalIndices.apply_changes`: `setattr` of the clamped
value for a single key; unknown keys fail the `hasattr` test and are
ignored. -/
def applyOneChange (idx : NationalIndices) (key : String) (delta : Int)
    (maxVal : Int) : NationalIndices :=
  if key = "economy" then
    { idx with economy := max 0 (min maxVal (idx.economy + delta)) }
  else if key = "society" then
    { idx with society := max 0 (min maxVal (idx.society + delta)) }
  else if key = "culture" then
    { idx with culture := max 0 (min maxVal (idx.culture + delta)) }
  else if key = "integration" then
    { idx with integration := max 0 (min maxVal (idx.integration + delta)) }
  else if key = "environment" then
    { idx with environment := max 0 (min maxVal (idx.environment + delta)) }
  else if key = "science" then
    { idx with science := max 0 (min maxVal (idx.science + delta)) }
  else idx

/-- `NationalIndices.apply_changes(changes, max_val)` — iterate over the dict
entries, clamping each updated index to `[0, max_val]`.  The Python default
for `max_val` is 30; callers in the embedding pass the value explicitly. -/
def applyChanges (idx : NationalIndices) (changes : List (String × Int))
    (maxVal : Int) : NationalIndices :=
  changes.foldl (fun i kv => applyOneChange i kv.1 kv.2 maxVal) idx

/-- `NationalIndices.is_any_zero`. -/
def isAnyZero (idx : NationalIndices) : Bool :=
  idx.economy ≤ 0 || idx.society ≤ 0 || idx.culture ≤ 0 ||
  idx.integration ≤ 0 || idx.environment ≤ 0 || idx.science ≤ 0

/-- `BoardCell`. -/
structure BoardCell where
  id : String
  position : Nat × Nat
  type : CellType
  name : String
  indices : List String
  placements : List CellPlacement
  deriving DecidableEq, Repr

/-- A `{team_id, amount}` entry of `ProjectStatus.contributing_teams`. -/
structure Contribution where
  team_id : String
  amount : Int
  deriving DecidableEq, Repr

/-- `ProjectStatus`. -/
structure ProjectStatus where
  total_contributed : Int := 0
  contributing_teams : List Contribution := []
  min_total : Int
  min_teams : Int
  status : String := "pending"
  deriving DecidableEq, Repr

/-- `TurnEvent` (`backend/config/events_config.py`); the reward/penalty dicts
are kept as ordered association lists. -/
structure TurnEvent where
  turn : Int
  year : Int
  name : String
  project : String
  min_total : Int
  min_teams : Int
  success_reward : List (String × Int)
  failure_penalty : List (String × Int)
  deriving DecidableEq, Repr

/-- `GameState`. -/
structure GameState where
  current_turn : Int := 1
  current_phase : GamePhase := .event
  phase_start_time : Option Nat := none
  phase_time_limit : Int := 60
  is_paused : Bool := false
  national_indices : NationalIndices := {}
  current_event : Option TurnEvent := none
  project_status : Option ProjectStatus := none
  board : List BoardCell := []
  deriving DecidableEq, Repr

/-- `Team` (internal representation, `backend/room/schemas.py`); `region` is
kept as its display name. -/
structure Team where
  id : String
  index : Int
  name : String
  region : String
  session_token : String
  score : Int := 0
  resources : Int := 14
  placements : List Placement := []
  has_submitted : Bool := false
  is_connected : Bool := false
  deriving DecidableEq, Repr

/-- `Room`. -/
structure Room where
  code : String
  host_name : String
  host_token : String
  status : RoomStatus := .waiting
  teams : List Team := []
  game_state : Option GameState := none
  deriving DecidableEq, Repr

/-! ## Events configuration (`backend/config/events_config.py`) -/

/-- `get_event_by_turn` over the static `TURN_EVENTS` table. -/
def get_event_by_turn (turn : Int) : Option TurnEvent :=
  if turn = 1 then some
    { turn := 1, year := 1986, name := "Khủng hoảng lạm phát 774%",
      project := "Nghị quyết Khoán 10", min_total := 20, min_teams := 3,
      success_reward := [("points", 8), ("economy", 4), ("society", 3)],
      failure_penalty := [("economy", -4), ("society", -3)] }
  else if turn = 2 then some
    { turn := 2, year := 1987, name := "Cấm vận quốc tế bóp nghẹt",
      project := "Luật Đầu tư Nước ngoài", min_total := 21, min_teams := 3,
      success_reward := [("points", 10), ("integration", 5), ("economy", 3)],
      failure_penalty := [("integration", -4), ("economy", -3)] }
  else if turn = 3 then some
    { turn := 3, year := 1991, name := "Liên Xô sụp đổ, viện trợ chấm dứt",
      project := "Tự lực cánh sinh", min_total := 22, min_teams := 3,
      success_reward := [("points", 12), ("science", 4), ("economy", 4)],
      failure_penalty := [("economy", -4), ("science", -3)] }
  else if turn = 4 then some
    { turn := 4, year := 1993, name := "Thiên tai lũ lụt miền Trung",
      project := "Cứu trợ quốc gia", min_total := 23, min_teams := 3,
      success_reward := [("points", 12), ("environment", 5), ("society", 3)],
      failure_penalty := [("environment", -4), ("society", -3)] }
  else if turn = 5 then some
    { turn := 5, year := 1994, name := "Áp lực mở cửa kinh tế",
      project := "Mỹ dỡ bỏ cấm vận", min_total := 24, min_teams := 3,
      success_reward := [("points", 14), ("integration", 4), ("economy", 4)],
      failure_penalty := [("integration", -4), ("economy", -3)] }
  else if turn = 6 then some
    { turn := 6, year := 1995, name := "Hội nhập khu vực",
      project := "Gia nhập ASEAN", min_total := 25, min_teams := 3,
      success_reward := [("points", 14), ("integration", 5), ("culture", 3)],
      failure_penalty := [("integration", -5), ("culture", -4)] }
  else if turn = 7 then some
    { turn := 7, year := 2000, name := "Cạnh tranh toàn cầu hóa",
      project := "Hiệp định Thương mại Việt-Mỹ", min_total := 26, min_teams := 3,
      success_reward := [("points", 16), ("economy", 5), ("science", 3)],
      failure_penalty := [("economy", -5), ("science", -4)] }
  else if turn = 8 then some
    { turn := 8, year := 2007, name := "Hội nhập sâu rộng",
      project := "Gia nhập WTO", min_total := 28, min_teams := 4,
      success_reward := [("points", 20), ("economy", 3), ("society", 3),
        ("culture", 3), ("integration", 3), ("environment", 3), ("science", 3)],
      failure_penalty := [("economy", -5), ("society", -5), ("culture", -5),
        ("integration", -5), ("environment", -5), ("science", -5)] }
  else none

/-! ## Scoring engine (`backend/game/scoring.py`) -/

/-- `ScoringService._score_competitive`: winner takes all, split on tie.
Only reached with a non-empty positive-placements list, where `max?` is
`some`; the `none` branch is unreachable from `calculate_cell_scores`. -/
def score_competitive (placements : List CellPlacement) (multiplier : Rat) :
    List (String × Rat) :=
  let amounts : List Int := placements.map (·.amount)
  match amounts.max? with
  | none => []
  | some max_amount =>
      let winners := placements.filter (fun p => p.amount = max_amount)
      let total_pool : Rat := (max_amount : Rat) * multiplier
      let prize_per_winner : Rat := total_pool / (winners.length : Rat)
      placements.foldl
        (fun d p =>
          dictSet d p.team_id
            (if p.amount = max_amount then prize_per_winner else 0)) []

/-- `ScoringService._score_synergy`: everyone gets `amount × multiplier`. -/
def score_synergy (placements : List CellPlacement) (multiplier : Rat) :
    List (String × Rat) :=
  placements.foldl
    (fun d p => dictSet d p.team_id ((p.amount : Rat) * multiplier)) []

/-- `ScoringService._score_shared`: proportional split of
`total × multiplier`. -/
def score_shared (placements : List CellPlacement) (multiplier : Rat) :
    List (String × Rat) :=
  let total : Int := (placements.map (·.amount)).sum
  let total_pool : Rat := (total : Rat) * multiplier
  placements.foldl
    (fun d p =>
      dictSet d p.team_id
        (if 0 < total then ((p.amount : Rat) / (total : Rat)) * total_pool
         else 0)) []

/-- `ScoringService._score_cooperation`: everyone scores
`amount × multiplier`, but only if at least `COOPERATION_MIN_TEAMS`
placements participate; otherwise every contributor scores 0. -/
def score_cooperation (placements : List CellPlacement) (multiplier : Rat) :
    List (String × Rat) :=
  if placements.length < COOPERATION_MIN_TEAMS then
    placements.foldl (fun d p => dictSet d p.team_id 0) []
  else
    placements.foldl
      (fun d p => dictSet d p.team_id ((p.amount : Rat) * multiplier)) []

/-- `ScoringService.calculate_cell_scores`: filter to positive placements,
dispatch on the cell type; a project-typed cell falls through to `return {}`
in the source. -/
def calculate_cell_scores (cell : BoardCell) : List (String × Rat) :=
  let placements := cell.placements.filter (fun p => 0 < p.amount)
  if placements = [] then []
  else
    let multiplier := CELL_MULTIPLIERS cell.type
    match cell.type with
    | .competitive => score_competitive placements multiplier
    | .synergy => score_synergy placements multiplier
    | .shared => score_shared placements multiplier
    | .cooperation => score_cooperation placements multiplier
    | .project => []

/-- Return value of `ScoringService.calculate_project_result`. -/
structure ProjectResult where
  success : Bool
  total_contributed : Int
  teams_contributed : Int
  team_scores : List (String × Rat)
  deriving DecidableEq, Repr

/-- `ScoringService.calculate_project_result`: success iff the contribution
total reaches `min_total` and the number of entries with positive amount
reaches `min_teams`; on success every contributor earns
`amount × PROJECT_SUCCESS_BONUS_PER_RP`, on failure everyone earns 0. -/
def calculate_project_result (contributions : List Contribution)
    (min_total min_teams : Int) : ProjectResult :=
  let total : Int := (contributions.map (·.amount)).sum
  let num_teams : Int := ((contributions.filter (fun c => 0 < c.amount)).length : Int)
  let success : Bool := decide (min_total ≤ total ∧ min_teams ≤ num_teams)
  let team_scores :=
    contributions.foldl
      (fun d c =>
        dictSet d c.team_id
          (if success then (c.amount : Rat) * PROJECT_SUCCESS_BONUS_PER_RP
           else 0)) []
  { success := success, total_contributed := total,
    teams_contributed := num_teams, team_scores := team_scores }

/-! ## Game engine service (`backend/game/service.py`) -/

/-- `next((t for t in teams if t.id == team_id), None)`. -/
def findTeam : List Team → String → Option Team
  | [], _ => none
  | t :: ts, tid => if t.id = tid then some t else findTeam ts tid

/-- `next((p for p in placements if p.cell_id == cell_id), None)`. -/
def findPlacement : List Placement → String → Option Placement
  | [], _ => none
  | p :: ps, cid => if p.cell_id = cid then some p else findPlacement ps cid

/-- `current_amount = current_placement.amount if current_placement else 0`. -/
def currentAmountFor (ps : List Placement) (cid : String) : Int :=
  match findPlacement ps cid with
  | some p => p.amount
  | none => 0

/-- Apply `f` to the first team whose id matches (the `next(...)` result is an
alias into `room.teams`, so mutating it rewrites that list entry). -/
def updateFirstTeam : List Team → String → (Team → Team) → List Team
  | [], _, _ => []
  | t :: ts, tid, f =>
      if t.id = tid then f t :: ts else t :: updateFirstTeam ts tid f

/-- The placement-list update of `place_resource` (source lines 114-120):
if a placement for the cell exists it is removed when `amount == 0` and has
its amount overwritten otherwise; if none exists a new record is appended
when `amount > 0`.  This path is only reached with `amount ≥ 0`. -/
def setOrRemovePlacement : List Placement → String → Int → List Placement
  | [], cid, amount => if 0 < amount then [⟨cid, amount⟩] else []
  | p :: ps, cid, amount =>
      if p.cell_id = cid then
        (if amount = 0 then ps else { p with amount := amount } :: ps)
      else p :: setOrRemovePlacement ps cid amount

/-- `cell = next((c for c in board if c.id == cell_id), None); if cell:
cell.placements.append(...)` — append to the first matching board cell. -/
def addToCell : List BoardCell → String → CellPlacement → List BoardCell
  | [], _, _ => []
  | c :: cs, cid, cp =>
      if c.id = cid then { c with placements := c.placements ++ [cp] } :: cs
      else c :: addToCell cs cid cp

/-- One placement step of `_sync_placements_to_board`: project contributions
accumulate into the `ProjectStatus`, everything else is appended to its board
cell (silently dropped when no cell matches). -/
def syncOnePlacement (st : Option ProjectStatus × List BoardCell)
    (teamId : String) (p : Placement) : Option ProjectStatus × List BoardCell :=
  if p.cell_id = PROJECT_CELL_ID then
    (st.1.map (fun ps =>
      { ps with
        total_contributed := ps.total_contributed + p.amount,
        contributing_teams := ps.contributing_teams ++ [⟨teamId, p.amount⟩] }),
     st.2)
  else
    (st.1, addToCell st.2 p.cell_id ⟨teamId, p.amount⟩)

/-- `GameService._sync_placements_to_board`: clear every cell and the project
aggregate, then re-derive both from every team's current placements. -/
def syncPlacementsToBoard (room : Room) : Room :=
  match room.game_state with
  | none => room
  | some gs =>
      let cleared : Option ProjectStatus × List BoardCell :=
        (gs.project_status.map (fun ps =>
          { ps with total_contributed := 0, contributing_teams := [] }),
         gs.board.map (fun c => { c with placements := [] }))
      let synced :=
        room.teams.foldl
          (fun st t => t.placements.foldl (fun st p => syncOnePlacement st t.id p) st)
          cleared
      { room with
        game_state := some { gs with project_status := synced.1, board := synced.2 } }

/-- `GameService.place_resource`: the first component is `some message`
exactly on the source's raising paths, all of which precede any mutation;
the second component is the room state after the call. -/
def place_resource (room : Room) (team_id cell_id : String) (amount : Int) :
    Option String × Room :=
  match room.game_state with
  | none => (some "Game not started", room)
  | some gs =>
      if gs.current_phase ≠ GamePhase.action then
        (some "Can only place during action phase", room)
      else
        match findTeam room.teams team_id with
        | none => (some "Team not found", room)
        | some team =>
            if team.has_submitted then (some "Already submitted", room)
            else
              let change := amount - currentAmountFor team.placements cell_id
              if team.resources < change then (some "Not enough resources", room)
              else if amount < 0 then (some "Amount cannot be negative", room)
              else
                let room' :=
                  { room with
                    teams :=
                      updateFirstTeam room.teams team_id (fun t =>
                        { t with
                          resources := t.resources - change,
                          placements := setOrRemovePlacement t.placements cell_id amount }) }
                (none, syncPlacementsToBoard room')

/-- `GameService.submit_turn`: raises exactly when the team id is unknown,
otherwise sets the first matching team's submitted flag — there is no phase,
status or game-started check. -/
def submit_turn (room : Room) (team_id : String) : Option String × Room :=
  match findTeam room.teams team_id with
  | none => (some "Team not found", room)
  | some _ =>
      (none,
       { room with
         teams := updateFirstTeam room.teams team_id
           (fun t => { t with has_submitted := true }) })

/-- `GameService.all_teams_submitted`. -/
def all_teams_submitted (room : Room) : Bool :=
  (room.teams.filter (·.is_connected)).all (·.has_submitted)

/-! ## Turn resolution (`GameService._process_turn`) -/

/-- Python `int(x)` on a float: truncation toward zero. -/
def pyInt (q : Rat) : Int := if q < 0 then ⌈q⌉ else ⌊q⌋

/-- One `{cell_id, team_scores}` entry of `TurnResult.cell_results`. -/
structure CellResult where
  cell_id : String
  team_scores : List (String × Rat)
  deriving DecidableEq, Repr

/-- One `{team_id, amount, points}` entry of
`TurnResult.project_contributions`. -/
structure ProjContrib where
  team_id : String
  amount : Int
  points : Rat
  deriving DecidableEq, Repr

/-- One `{team_id, turn_score, total_score}` entry of
`TurnResult.team_scores`. -/
structure TeamScore where
  team_id : String
  turn_score : Int
  total_score : Int
  deriving DecidableEq, Repr

/-- `TurnResult`. -/
structure TurnResult where
  turn : Int
  project_success : Bool
  project_contributions : List ProjContrib
  cell_results : List CellResult
  index_changes : List (String × Int)
  new_indices : NationalIndices
  team_scores : List TeamScore
  deriving DecidableEq, Repr

/-- The per-cell scoring loop of `_process_turn`: score each board cell,
collect the per-cell result rows and accumulate each team's turn score
(`team_turn_scores[team_id] += points` raises `KeyError` on an id absent
from the initial `{t.id: 0}` dict). -/
def scoreCells : List BoardCell → List (String × Rat) → List CellResult →
    Except String (List (String × Rat) × List CellResult)
  | [], d, acc => .ok (d, acc)
  | c :: cs, d, acc =>
      let scores := calculate_cell_scores c
      match dictAddAll d scores with
      | .error e => .error e
      | .ok d' => scoreCells cs d' (acc ++ [⟨c.id, scores⟩])

/-- `GameService._process_turn`: scores every cell, resolves the project,
applies the event's index deltas, splits the flat success bonus among the
positive contributors, and produces the `TurnResult` snapshot. -/
def processTurn (room : Room) : Except String (Room × TurnResult) :=
  match room.game_state with
  | none => .error "Game not started"
  | some gs =>
      let d0 : List (String × Rat) :=
        room.teams.foldl (fun d t => dictSet d t.id 0) []
      match scoreCells gs.board d0 [] with
      | .error e => .error e
      | .ok (d1, cell_results) =>
          -- Project resolution (only when both the status and event exist)
          match gs.project_status, gs.current_event with
          | some ps, some ev =>
              let project_result :=
                calculate_project_result ps.contributing_teams ps.min_total ps.min_teams
              let project_success := project_result.success
              let ps' :=
                { ps with status := if project_success then "success" else "failure" }
              match dictAddAll d1 project_result.team_scores with
              | .error e => .error e
              | .ok d2 =>
                  let project_contributions :=
                    ps.contributing_teams.map (fun c =>
                      ⟨c.team_id, c.amount,
                       dictGetD project_result.team_scores c.team_id 0⟩)
                  let index_changes :=
                    if project_success then
                      ev.success_reward.filter (fun kv => kv.1 ≠ "points")
                    else ev.failure_penalty
                  let indices' :=
                    applyChanges gs.national_indices index_changes INDEX_MAXIMUM
                  let bonus_points : Int := dictGetD ev.success_reward "points" 0
                  let positives :=
                    ps.contributing_teams.filter (fun c => 0 < c.amount)
                  let rows :=
                    room.teams.map (fun t =>
                      let base := pyInt (dictGetD d2 t.id 0)
                      let turn_score :=
                        if project_success ∧ ps.contributing_teams ≠ [] ∧
                            ps.contributing_teams.any
                              (fun c => c.team_id = t.id ∧ 0 < c.amount) then
                          base + Int.fdiv bonus_points (positives.length : Int)
                        else base
                      (({ t with score := t.score + turn_score } : Team),
                       ({ team_id := t.id, turn_score := turn_score,
                          total_score := t.score + turn_score } : TeamScore)))
                  let teams' := rows.map (·.1)
                  let team_scores := rows.map (·.2)
                  .ok
                    ({ room with
                       teams := teams',
                       game_state := some
                         { gs with project_status := some ps',
                                   national_indices := indices' } },
                     { turn := gs.current_turn,
                       project_success := project_success,
                       project_contributions := project_contributions,
                       cell_results := cell_results,
                       index_changes := index_changes,
                       new_indices := indices',
                       team_scores := team_scores })
          | _, _ =>
              -- no project to resolve: only the cell scores count
              let rows :=
                room.teams.map (fun t =>
                  let turn_score := pyInt (dictGetD d1 t.id 0)
                  (({ t with score := t.score + turn_score } : Team),
                   ({ team_id := t.id, turn_score := turn_score,
                      total_score := t.score + turn_score } : TeamScore)))
              let teams' := rows.map (·.1)
              let team_scores := rows.map (·.2)
              .ok
                ({ room with teams := teams', game_state := some gs },
                 { turn := gs.current_turn,
                   project_success := false,
                   project_contributions := [],
                   cell_results := cell_results,
                   index_changes := [],
                   new_indices := gs.national_indices,
                   team_scores := team_scores })

/-- The maintenance loop at the top of the RESULT branch of `advance_phase`:
`apply_changes({key: -cost})` for every entry, with the Python default
`max_val = 30`. -/
def maintainIndices (idx : NationalIndices) : NationalIndices :=
  MAINTENANCE_COST.foldl (fun i kv => applyChanges i [(kv.1, -kv.2)] 30) idx

/-- The common tail of `advance_phase` (source lines 247-248): stamp a fresh
phase-start time and clear the pause flag. -/
def stampRoom (room : Room) (now : Nat) : Room :=
  match room.game_state with
  | none => room
  | some gs =>
      { room with
        game_state := some { gs with phase_start_time := some now, is_paused := false } }

/-- The current phase as read back for `advance_phase`'s return value. -/
def roomPhase (room : Room) : GamePhase :=
  match room.game_state with
  | none => GamePhase.event
  | some gs => gs.current_phase

/-- `GameService.advance_phase`; `now` stands for `datetime.now()`.  The two
terminal checks in the RESULT branch return before the final stamping
statements run. -/
def advance_phase (room : Room) (now : Nat) :
    Except String (Room × GamePhase × Option TurnResult) :=
  match room.game_state with
  | none => .error "Game not started"
  | some gs =>
      match gs.current_phase with
      | .event =>
          let room₁ :=
            { room with
              game_state := some
                { gs with current_phase := .action,
                          phase_time_limit := PHASE_ACTION_DURATION } }
          .ok (stampRoom room₁ now, roomPhase room₁, none)
      | .action =>
          let room₁ :=
            { room with
              game_state := some
                { gs with current_phase := .resolution,
                          phase_time_limit := PHASE_RESOLUTION_DURATION },
              teams := room.teams.map (fun t => { t with has_submitted := true }) }
          match processTurn room₁ with
          | .error e => .error e
          | .ok (room₂, result) =>
              .ok (stampRoom room₂ now, roomPhase room₂, some result)
      | .resolution =>
          let room₁ :=
            { room with
              game_state := some
                { gs with current_phase := .result,
                          phase_time_limit := PHASE_RESULT_DURATION } }
          .ok (stampRoom room₁ now, roomPhase room₁, none)
      | .result =>
          let idx' := maintainIndices gs.national_indices
          let gs₁ := { gs with national_indices := idx' }
          if isAnyZero idx' then
            .ok ({ room with game_state := some gs₁, status := .finished },
                 gs₁.current_phase, none)
          else if MAX_TURNS ≤ gs.current_turn then
            .ok ({ room with game_state := some gs₁, status := .finished },
                 gs₁.current_phase, none)
          else
            let next_turn := gs.current_turn + 1
            let next_event := get_event_by_turn next_turn
            let gs₂ :=
              { gs₁ with
                current_turn := next_turn,
                current_phase := .event,
                phase_time_limit := PHASE_EVENT_DURATION,
                current_event := next_event,
                project_status :=
                  next_event.map (fun ev =>
                    { min_total := ev.min_total, min_teams := ev.min_teams }),
                board := gs₁.board.map (fun c => { c with placements := [] }) }
            let room₁ :=
              { room with
                game_state := some gs₂,
                teams := room.teams.map (fun t =>
                  { t with resources := RESOURCES_PER_TURN, placements := [],
                           has_submitted := false }) }
            .ok (stampRoom room₁ now, roomPhase room₁, none)

/-! ## Connection registry (`backend/websocket/manager.py`)

WebSocket handles are modelled as `Nat` identifiers. -/

/-- `ConnectionInfo`. -/
structure ConnectionInfo where
  authenticated : Bool := false
  role : Option ClientRole := none
  team_id : Option String := none
  deriving DecidableEq, Repr

/-- `ConnectionManager` state: the per-room connection dict, plus the
module-level team map (`team_id → websocket`) and host slot, which are
NOT partitioned by room. -/
structure ConnectionManager where
  connections : List (String × List (Nat × ConnectionInfo)) := []
  team_connections : List (String × Nat) := []
  host_connection : Option Nat := none
  deriving DecidableEq, Repr

/-- Python truthiness of `team_id` (`None` and the empty string are falsy). -/
def teamIdTruthy : Option String → Bool
  | none => false
  | some s => s ≠ ""

/-- `ConnectionManager.authenticate`: checks the room and connection exist,
enforces the single-host / single-connection-per-team rules against the
GLOBAL `_host_connection` slot and `_team_connections` map, then marks the
connection authenticated. -/
def authenticate (m : ConnectionManager) (ws : Nat) (room_code : String)
    (role : ClientRole) (team_id : Option String) :
    (Bool × String) × ConnectionManager :=
  match dictLookup m.connections room_code with
  | none => ((false, "Room not found"), m)
  | some conns =>
      match dictLookup conns ws with
      | none => ((false, "Connection not found"), m)
      | some _ =>
          let info : ConnectionInfo :=
            { authenticated := true, role := some role, team_id := team_id }
          let finish (mUpd : ConnectionManager) : (Bool × String) × ConnectionManager :=
            ((true, ""),
             { mUpd with connections := dictSet mUpd.connections room_code (dictSet conns ws info) })
          if role = ClientRole.host then
            match m.host_connection with
            | some _ => ((false, "Host already connected"), m)
            | none => finish { m with host_connection := some ws }
          else if role = ClientRole.player ∧ teamIdTruthy team_id then
            match dictLookup m.team_connections (team_id.getD "") with
            | some _ => ((false, "Team already connected"), m)
            | none =>
                finish
                  { m with team_connections := dictSet m.team_connections (team_id.getD "") ws }
          else finish m

/-! ## State projector (`backend/websocket/state_filter.py`)

The broadcast message is a Python dict; the fields the filter manipulates are
modelled as structure fields, with the removable ones (`session_token`,
`host_token`, `resources`) as `Option`s where `none` stands for an absent
key / `None` value. -/

/-- A `{...}` team entry of `GAME_STATE.data.teams`. -/
structure TeamMsg where
  id : String
  session_token : Option String := none
  placements : List Placement := []
  resources : Option Int := none
  deriving DecidableEq, Repr

/-- The `data` payload of a `GAME_STATE` message. -/
structure GameStateData where
  host_token : Option String := none
  teams : Option (List TeamMsg) := none
  deriving DecidableEq, Repr

/-- A broadcast message as seen by the filter. -/
structure WsMessage where
  type : String
  data : GameStateData
  deriving DecidableEq, Repr

/-- `filter_game_state`: non-`GAME_STATE` messages and the host pass through
unchanged; otherwise every team's `session_token` and the `host_token` are
removed, a spectator loses all placements/resources, and a player keeps only
their own team's placements/resources. -/
def filter_game_state (message : WsMessage) (conn_info : ConnectionInfo) :
    WsMessage :=
  if message.type ≠ "GAME_STATE" then message
  else if conn_info.role = some ClientRole.host then message
  else
    let filtered_teams :=
      message.data.teams.map (fun ts =>
        ts.map (fun team =>
          let ft := { team with session_token := none }
          if conn_info.role = some ClientRole.spectator then
            { ft with placements := [], resources := none }
          else if conn_info.role = some ClientRole.player then
            (if some team.id ≠ conn_info.team_id then
              { ft with placements := [], resources := none }
             else ft)
          else ft))
    { type := "GAME_STATE",
      data := { host_token := none, teams := filtered_teams } }

/-! ## Spec-side predicates used by the theorem statements -/

/-- The spec's `sum(placement.amount for placement in team)`. -/
def sumPlacementAmounts (t : Team) : Int := (t.placements.map (·.amount)).sum

/-- The per-turn resource budget invariant of the spec, phrased against the
code's `resources` field (which holds the REMAINING budget). -/
def teamBudgetInv (t : Team) : Prop :=
  0 ≤ t.resources ∧ sumPlacementAmounts t + t.resources = RESOURCES_PER_TURN

/-- `0 ≤ x ≤ INDEX_MAXIMUM`. -/
def Bounded (x : Int) : Prop := 0 ≤ x ∧ x ≤ INDEX_MAXIMUM

/-- All six national indices lie in `[0, INDEX_MAXIMUM]`. -/
def indicesInBounds (idx : NationalIndices) : Prop :=
  Bounded idx.economy ∧ Bounded idx.society ∧ Bounded idx.culture ∧
  Bounded idx.integration ∧ Bounded idx.environment ∧ Bounded idx.science

/-- The validation-error conditions of `place_resource` as listed by the
claim: game not started, wrong phase, unknown team, already submitted, delta
beyond the remaining resources, or negative amount. -/
def placeErrorCond (room : Room) (tid cid : String) (amount : Int) : Prop :=
  room.game_state = none
  ∨ (∃ gs, room.game_state = some gs ∧ gs.current_phase ≠ GamePhase.action)
  ∨ findTeam room.teams tid = none
  ∨ (∃ t, findTeam room.teams tid = some t ∧ t.has_submitted = true)
  ∨ (∃ t, findTeam room.teams tid = some t ∧
        t.resources < amount - currentAmountFor t.placements cid)
  ∨ amount < 0

/-- The terminal condition checked (after maintenance) by the RESULT branch
of `advance_phase`: some index hit zero, or the turn cap was reached. -/
def resultTerminal (gs : GameState) : Prop :=
  gs.current_phase = GamePhase.result ∧
    (isAnyZero (maintainIndices gs.national_indices) = true ∨
     MAX_TURNS ≤ gs.current_turn)

/-! ## Concrete states used by counterexamples and witnesses -/

/-- A fresh team with the full per-turn budget. -/
def teamC2 : Team :=
  { id := "t1", index := 0, name := "T1", region := "Bắc",
    session_token := "s1", score := 0, resources := 14,
    placements := [], has_submitted := false, is_connected := true }

/-- A minimal mid-ACTION room with one team and a fresh resource budget. -/
def roomC2 : Room :=
  { code := "111111", host_name := "h", host_token := "ht",
    status := .playing,
    teams := [teamC2],
    game_state := some { current_turn := 1, current_phase := .action,
                         phase_start_time := some 0, board := [],
                         project_status := none } }

/-- Like `roomC2` but used by the C5 witness. -/
def roomC5 : Room :=
  { code := "222222", host_name := "h", host_token := "ht",
    status := .playing,
    teams := [{ id := "t1", index := 0, name := "T1", region := "Trung",
                session_token := "s1", score := 0, resources := 14,
                placements := [], has_submitted := false, is_connected := true }],
    game_state := some { current_turn := 1, current_phase := .action,
                         phase_start_time := some 0, board := [],
                         project_status := none } }

/-- A paused RESULT-phase room whose economy index will hit zero when the
per-turn maintenance cost is applied. -/
def roomC6 : Room :=
  { code := "333333", host_name := "h", host_token := "ht",
    status := .playing, teams := [],
    game_state := some { current_turn := 3, current_phase := .result,
                         phase_start_time := some 5, is_paused := true,
                         national_indices := { economy := 1 },
                         board := [], project_status := none } }

/-- The game state of the EVENT-phase room used by the C6 witness. -/
def gsC6w : GameState :=
  { current_turn := 1, current_phase := .event, phase_start_time := some 2,
    is_paused := true, board := [], project_status := none }

/-- An EVENT-phase room used by the C6 witness. -/
def roomC6w : Room :=
  { code := "444444", host_name := "h", host_token := "ht",
    status := .playing, teams := [],
    game_state := some gsC6w }

/-- The room `advance_phase roomC6w 7` produces: phase advanced to ACTION,
phase start stamped at 7 and the pause flag cleared. -/
def roomC6wAfter : Room :=
  { code := "444444", host_name := "h", host_token := "ht",
    status := .playing, teams := [],
    game_state := some { current_turn := 1, current_phase := .action,
                         phase_start_time := some 7, phase_time_limit := 60,
                         is_paused := false, board := [],
                         project_status := none } }

/-- A `GAME_STATE` message still carrying both credentials. -/
def msgC7 : WsMessage :=
  { type := "GAME_STATE",
    data := { host_token := some "host-secret",
              teams := some [{ id := "t1", session_token := some "team-secret",
                               placements := [⟨"cell-0-0", 3⟩],
                               resources := some 11 }] } }

def hostInfoC7 : ConnectionInfo :=
  { authenticated := true, role := some .host, team_id := none }

def playerInfoC7 : ConnectionInfo :=
  { authenticated := true, role := some .player, team_id := some "t1" }

/-- Manager state after a host authenticated in room "A", with a second,
still-unauthenticated connection open in room "B". -/
def mgrAB : ConnectionManager :=
  { connections :=
      [("A", [(1, { authenticated := true, role := some .host, team_id := none })]),
       ("B", [(2, {})])],
    team_connections := [], host_connection := some 1 }

/-- Manager state with only room "B" (identical to `mgrAB` from room "B"'s
point of view) and no host bound anywhere. -/
def mgrB : ConnectionManager :=
  { connections := [("B", [(2, {})])],
    team_connections := [], host_connection := none }

/-! ## Helper lemmas on the dict model -/

lemma dictLookup_dictSet_self {α β : Type} [DecidableEq α]
    (d : List (α × β)) (k : α) (v : β) :
    dictLookup (dictSet d k v) k = some v := by
  induction d with
  | nil => simp [dictSet, dictLookup]
  | cons kv rest ih =>
      by_cases h : kv.1 = k <;> simp [dictSet, dictLookup, h, ih]

lemma dictLookup_dictSet_ne {α β : Type} [DecidableEq α]
    (d : List (α × β)) (k k' : α) (v : β) (h : k' ≠ k) :
    dictLookup (dictSet d k' v) k = dictLookup d k := by
  induction d with
  | nil => simp [dictSet, dictLookup, h]
  | cons kv rest ih =>
      by_cases hk : kv.1 = k'
      · simp [dictSet, dictLookup, hk, h]
      · simp only [dictSet, hk, if_false, dictLookup]
        by_cases hk2 : kv.1 = k <;> simp [hk2, ih]

lemma dictLookup_foldl_set_not_mem {α κ : Type} [DecidableEq κ]
    (l : List α) (key : α → κ) (val : α → Rat) (d₀ : List (κ × Rat)) (k : κ)
    (hk : k ∉ l.map key) :
    dictLookup (l.foldl (fun d x => dictSet d (key x) (val x)) d₀) k =
      dictLookup d₀ k := by
  induction l generalizing d₀ with
  | nil => rfl
  | cons x xs ih =>
      simp only [List.map_cons, List.mem_cons, not_or] at hk
      rw [List.foldl_cons, ih _ hk.2, dictLookup_dictSet_ne _ _ _ _ (fun h => hk.1 h.symm)]

lemma dictLookup_foldl_set {α κ : Type} [DecidableEq κ]
    (l : List α) (key : α → κ) (val : α → Rat) (d₀ : List (κ × Rat)) (c : α)
    (hc : c ∈ l) (hnd : (l.map key).Nodup) :
    dictLookup (l.foldl (fun d x => dictSet d (key x) (val x)) d₀) (key c) =
      some (val c) := by
  induction l generalizing d₀ with
  | nil => cases hc
  | cons x xs ih =>
      simp only [List.map_cons, List.nodup_cons] at hnd
      rcases List.mem_cons.mp hc with rfl | hmem
      · rw [List.foldl_cons,
          dictLookup_foldl_set_not_mem xs key val _ (key c) hnd.1,
          dictLookup_dictSet_self]
      · rw [List.foldl_cons]
        exact ih _ hmem hnd.2

/-! ## C1 / C3 / C9 — scoring engine theorems -/

/-- Claim C1 (counterexample): with a single contribution of 5 against
`min_total = 10`, the project fails and the contributor's yield is 0, not
`5 × PROJECT_SUCCESS_BONUS_PER_RP = 5`: the raw-amount yield is NOT paid
regardless of the outcome. -/
theorem project_yield_not_outcome_independent :
    (calculate_project_result [⟨"t1", 5⟩] 10 1).success = false ∧
    dictLookup (calculate_project_result [⟨"t1", 5⟩] 10 1).team_scores "t1" = some 0 ∧
    (0 : Rat) ≠ (5 : Rat) * PROJECT_SUCCESS_BONUS_PER_RP := by
  refine ⟨by decide, by decide, by norm_num [PROJECT_SUCCESS_BONUS_PER_RP]⟩

/-- Claim C1 (amended): for every contributions list with pairwise-distinct team
ids (as produced by the board resync), each contributing team's per-contributor
yield from its raw resource amount is `amount × PROJECT_SUCCESS_BONUS_PER_RP`
when the project succeeds, and 0 when it fails — on top of the evenly split
flat bonus, which is awarded separately (see `processTurn`) only on
success. -/
theorem project_yield_rate (contributions : List Contribution)
    (min_total min_teams : Int) (c : Contribution)
    (hc : c ∈ contributions)
    (hnd : (contributions.map (·.team_id)).Nodup) :
    dictLookup (calculate_project_result contributions min_total min_teams).team_scores
        c.team_id =
      some (if (calculate_project_result contributions min_total min_teams).success = true
            then (c.amount : Rat) * PROJECT_SUCCESS_BONUS_PER_RP else 0) := by
  unfold calculate_project_result
  simp only []
  exact dictLookup_foldl_set contributions (·.team_id) _ [] c hc hnd

/-- Claim C1 (witness): a concrete successful project pays team `t1` exactly
`10 × PROJECT_SUCCESS_BONUS_PER_RP`. -/
theorem project_yield_rate_witness :
    dictLookup (calculate_project_result [⟨"t1", 10⟩, ⟨"t2", 10⟩] 20 2).team_scores "t1" =
      some (if (calculate_project_result [⟨"t1", 10⟩, ⟨"t2", 10⟩] 20 2).success = true
            then ((10 : Int) : Rat) * PROJECT_SUCCESS_BONUS_PER_RP else 0) :=
  project_yield_rate [⟨"t1", 10⟩, ⟨"t2", 10⟩] 20 2 ⟨"t1", 10⟩ (by decide) (by decide)

/-- The number of distinct teams with a positive contribution (the claim's
reading; it coincides with the code's entry count whenever team ids are
pairwise distinct, as the board resync guarantees). -/
def distinctPositiveTeams (contributions : List Contribution) : Int :=
  (((contributions.filter (fun c => 0 < c.amount)).map (·.team_id)).dedup.length : Int)

lemma distinctPositiveTeams_of_nodup (contributions : List Contribution)
    (hnd : (contributions.map (·.team_id)).Nodup) :
    distinctPositiveTeams contributions =
      (((contributions.filter (fun c => 0 < c.amount)).length : Int)) := by
  unfold distinctPositiveTeams
  have hsub : ((contributions.filter (fun c => 0 < c.amount)).map (·.team_id)).Sublist
      (contributions.map (·.team_id)) :=
    (List.filter_sublist contributions).map (·.team_id)
  rw [List.Nodup.dedup (hnd.sublist hsub), List.length_map]

/-- Claim C3: the project outcome is success iff the contribution total reaches
`min_total` AND the number of distinct positively-contributing teams reaches
`min_teams`; hitting both thresholds exactly is a success, and one unit below
either threshold is a failure.  (Distinctness of team ids is the board-resync
invariant.) -/
theorem project_threshold_boundary (contributions : List Contribution)
    (min_total min_teams : Int)
    (hnd : (contributions.map (·.team_id)).Nodup) :
    ((calculate_project_result contributions min_total min_teams).success = true ↔
      min_total ≤ (contributions.map (·.amount)).sum ∧
      min_teams ≤ distinctPositiveTeams contributions)
    ∧ ((contributions.map (·.amount)).sum = min_total →
        distinctPositiveTeams contributions = min_teams →
        (calculate_project_result contributions min_total min_teams).success = true)
    ∧ ((contributions.map (·.amount)).sum = min_total - 1 →
        (calculate_project_result contributions min_total min_teams).success = false)
    ∧ (distinctPositiveTeams contributions = min_teams - 1 →
        (calculate_project_result contributions min_total min_teams).success = false) := by
  have hd := distinctPositiveTeams_of_nodup contributions hnd
  have hiff :
      (calculate_project_result contributions min_total min_teams).success = true ↔
        min_total ≤ (contributions.map (·.amount)).sum ∧
        min_teams ≤ distinctPositiveTeams contributions := by
    unfold calculate_project_result
    simp only [decide_eq_true_eq, hd]
  refine ⟨hiff, ?_, ?_, ?_⟩
  · intro h1 h2
    exact hiff.mpr ⟨le_of_eq h1.symm, le_of_eq h2.symm⟩
  · intro h1
    rcases hs : (calculate_project_result contributions min_total min_teams).success
    · rfl
    · have := hiff.mp hs
      omega
  · intro h1
    rcases hs : (calculate_project_result contributions min_total min_teams).success
    · rfl
    · have := hiff.mp hs
      omega

/-- Claim C3 (witness): exactly at both thresholds (total 20 = `min_total`, 3
distinct positive teams = `min_teams`) the outcome is success. -/
theorem project_threshold_boundary_witness :
    (calculate_project_result [⟨"t1", 10⟩, ⟨"t2", 7⟩, ⟨"t3", 3⟩] 20 3).success = true :=
  (project_threshold_boundary [⟨"t1", 10⟩, ⟨"t2", 7⟩, ⟨"t3", 3⟩] 20 3 (by decide)).2.1
    (by decide) (by decide)

lemma intList_max?_spec (l : List Int) (M : Int) (h : l.max? = some M) :
    M ∈ l ∧ ∀ x ∈ l, x ≤ M := by
  have anti : Std.Antisymm (fun (x1 x2 : Int) => x1 ≤ x2) :=
    ⟨fun h1 h2 => le_antisymm h1 h2⟩
  rw [@List.max?_eq_some_iff Int M _ _ anti (fun a => le_refl a)
    (fun a b => max_choice a b) (fun a b c => max_le_iff)] at h
  exact h

/-- Claim C9: on a competitive cell, every placement holding the highest amount `M`
receives an even share `M × multiplier / #winners` of the prize pool, every
lower placement scores 0, the shares reconstitute the whole pool, and with
exactly two tied winners each receives exactly half the pool. -/
theorem competitive_even_split (placements : List CellPlacement)
    (multiplier : Rat) (M : Int)
    (hmax : (placements.map (·.amount)).max? = some M)
    (hnd : (placements.map (·.team_id)).Nodup) :
    (∀ p ∈ placements, p.amount = M →
        dictLookup (score_competitive placements multiplier) p.team_id =
          some (((M : Rat) * multiplier) /
            ((placements.filter (fun q => q.amount = M)).length : Rat)))
    ∧ (∀ p ∈ placements, p.amount ≠ M →
        dictLookup (score_competitive placements multiplier) p.team_id = some 0)
    ∧ ((placements.filter (fun q => q.amount = M)).length : Rat) *
        (((M : Rat) * multiplier) /
          ((placements.filter (fun q => q.amount = M)).length : Rat)) =
        (M : Rat) * multiplier
    ∧ ((placements.filter (fun q => q.amount = M)).length = 2 →
        ∀ p ∈ placements, p.amount = M →
          dictLookup (score_competitive placements multiplier) p.team_id =
            some (((M : Rat) * multiplier) / 2)) := by
  have hlookup : ∀ p ∈ placements,
      dictLookup (score_competitive placements multiplier) p.team_id =
        some (if p.amount = M then
          ((M : Rat) * multiplier) /
            ((placements.filter (fun q => q.amount = M)).length : Rat)
        else 0) := by
    intro p hp
    simp only [score_competitive]
    rw [hmax]
    exact dictLookup_foldl_set placements (·.team_id)
      (fun p => if p.amount = M then
        ((M : Rat) * multiplier) /
          ((placements.filter (fun q => q.amount = M)).length : Rat)
        else 0) [] p hp hnd
  have hMmem : M ∈ placements.map (·.amount) := (intList_max?_spec _ _ hmax).1
  have hwin : (placements.filter (fun q => q.amount = M)).length ≠ 0 := by
    rcases List.mem_map.mp hMmem with ⟨p, hp, hpM⟩
    have hmem : p ∈ placements.filter (fun q => q.amount = M) :=
      List.mem_filter.mpr ⟨hp, by simp [hpM]⟩
    intro h
    rw [List.length_eq_zero] at h
    rw [h] at hmem
    cases hmem
  have hwinQ : ((placements.filter (fun q => q.amount = M)).length : Rat) ≠ 0 := by
    exact_mod_cast hwin
  refine ⟨?_, ?_, ?_, ?_⟩
  · intro p hp hpM
    rw [hlookup p hp, if_pos hpM]
  · intro p hp hpM
    rw [hlookup p hp, if_neg hpM]
  · rw [mul_comm, div_mul_cancel₀ _ hwinQ]
  · intro h2 p hp hpM
    rw [hlookup p hp, if_pos hpM, h2]
    norm_num

/-- Claim C9 (witness): two teams tied at 5 on a competitive cell with multiplier
3/2 each get exactly half the pool `5 × 3/2`. -/
theorem competitive_even_split_witness :
    dictLookup (score_competitive [⟨"A", 5⟩, ⟨"B", 5⟩, ⟨"C", 3⟩] (3 / 2)) "A" =
      some ((((5 : Int) : Rat) * (3 / 2)) / 2) :=
  (competitive_even_split [⟨"A", 5⟩, ⟨"B", 5⟩, ⟨"C", 3⟩] (3 / 2) 5 (by decide)
      (by decide)).2.2.2 (by decide) ⟨"A", 5⟩ (by decide) (by decide)

/-! ## C4 — national indices stay in `[0, INDEX_MAXIMUM]` -/

lemma applyOneChange_bounds (idx : NationalIndices) (k : String) (δ : Int)
    (h : indicesInBounds idx) :
    indicesInBounds (applyOneChange idx k δ INDEX_MAXIMUM) := by
  unfold applyOneChange
  unfold indicesInBounds Bounded INDEX_MAXIMUM at *
  split_ifs <;> simp_all

lemma applyChanges_bounds (changes : List (String × Int)) (idx : NationalIndices)
    (h : indicesInBounds idx) :
    indicesInBounds (applyChanges idx changes INDEX_MAXIMUM) := by
  unfold applyChanges
  induction changes generalizing idx with
  | nil => exact h
  | cons kv rest ih =>
      rw [List.foldl_cons]
      exact ih _ (applyOneChange_bounds idx kv.1 kv.2 h)

/-- Claim C4: whatever deltas are applied — the turn-resolution event
rewards/penalties through `apply_changes` with `INDEX_MAXIMUM`, or the
per-turn maintenance costs through `maintainIndices` (which uses the Python
default `max_val = 30 = INDEX_MAXIMUM`) — all six national indices remain in
`[0, INDEX_MAXIMUM]`. -/
theorem indices_stay_bounded (idx : NationalIndices) (changes : List (String × Int))
    (h : indicesInBounds idx) :
    indicesInBounds (applyChanges idx changes INDEX_MAXIMUM) ∧
    indicesInBounds (maintainIndices idx) := by
  refine ⟨applyChanges_bounds changes idx h, ?_⟩
  unfold maintainIndices
  have step : ∀ (l : List (String × Int)) (i : NationalIndices),
      indicesInBounds i →
      indicesInBounds (l.foldl (fun i kv => applyChanges i [(kv.1, -kv.2)] 30) i) := by
    intro l
    induction l with
    | nil => exact fun i hi => hi
    | cons kv rest ih =>
        intro i hi
        rw [List.foldl_cons]
        exact ih _ (applyChanges_bounds [(kv.1, -kv.2)] i hi)
  exact step MAINTENANCE_COST idx h

/-- Claim C4 (witness): from the starting indices, a mixed batch of deltas
(including one far beyond each bound) leaves every index in
`[0, INDEX_MAXIMUM]`, and so does the maintenance step. -/
theorem indices_stay_bounded_witness :
    indicesInBounds (applyChanges { economy := 10 } [("economy", 100), ("science", -100)] INDEX_MAXIMUM) ∧
    indicesInBounds (maintainIndices { economy := 10 }) :=
  indices_stay_bounded { economy := 10 } [("economy", 100), ("science", -100)]
    (by unfold indicesInBounds Bounded INDEX_MAXIMUM; norm_num)

/-! ## C10 — submit_turn has no phase or game-started precondition -/

lemma findTeam_updateFirstTeam (l : List Team) (tid : String) (f : Team → Team)
    (t₀ : Team) (h : findTeam l tid = some t₀) (hf : (f t₀).id = t₀.id) :
    findTeam (updateFirstTeam l tid f) tid = some (f t₀) := by
  induction l with
  | nil => cases h
  | cons t ts ih =>
      by_cases ht : t.id = tid
      · rw [findTeam, if_pos ht] at h
        injection h with h
        subst h
        rw [updateFirstTeam, if_pos ht, findTeam, if_pos (hf.trans ht)]
      · rw [findTeam, if_neg ht] at h
        rw [updateFirstTeam, if_neg ht, findTeam, if_neg ht]
        exact ih h

/-- Claim C10: `submit_turn` raises exactly when the team id is unknown; for a
known team it returns successfully with that team's submitted flag set and
the rest of the room untouched, and its outcome is the same whatever the
game state (phase, started or not) and session status are. -/
theorem submit_turn_no_precondition (room : Room) (tid : String) :
    ((submit_turn room tid).1.isSome ↔ findTeam room.teams tid = none)
    ∧ (∀ e, (submit_turn room tid).1 = some e → (submit_turn room tid).2 = room)
    ∧ (∀ t₀, findTeam room.teams tid = some t₀ →
        (submit_turn room tid).1 = none ∧
        findTeam (submit_turn room tid).2.teams tid =
          some { t₀ with has_submitted := true } ∧
        (submit_turn room tid).2.game_state = room.game_state ∧
        (submit_turn room tid).2.status = room.status)
    ∧ (∀ gs st,
        (submit_turn { room with game_state := gs, status := st } tid).1 =
          (submit_turn room tid).1) := by
  have hteams : ∀ gs st,
      ({ room with game_state := gs, status := st } : Room).teams = room.teams := by
    intro gs st
    rfl
  unfold submit_turn
  rcases hft : findTeam room.teams tid with _ | t₀
  · refine ⟨by simp, by simp, by simp [hft], ?_⟩
    intro gs st
    rw [hteams, hft]
  · refine ⟨by simp, by simp, ?_, ?_⟩
    · intro t₁ h₁
      injection h₁ with h₁
      subst h₁
      exact ⟨rfl, findTeam_updateFirstTeam room.teams tid _ _ hft rfl, rfl, rfl⟩
    · intro gs st
      rw [hteams, hft]

/-- Claim C10 (witness): in a mid-ACTION room, submitting for the known team `t1`
succeeds and marks it submitted; the same call against a not-yet-started
room (`game_state = none`, status WAITING) yields the same outcome. -/
theorem submit_turn_no_precondition_witness :
    ((submit_turn roomC2 "t1").1 = none ∧
      findTeam (submit_turn roomC2 "t1").2.teams "t1" =
        some { teamC2 with has_submitted := true }) ∧
    (submit_turn { roomC2 with game_state := none, status := .waiting } "t1").1 =
      (submit_turn roomC2 "t1").1 := by
  have h := submit_turn_no_precondition roomC2 "t1"
  have h3 := h.2.2.1 teamC2 (by decide)
  exact ⟨⟨h3.1, h3.2.1⟩, h.2.2.2 none .waiting⟩

/-! ## C5 — place_resource raises exactly on the listed conditions,
leaving the state unchanged -/

/-- Claim C5: `place_resource` fails exactly when the game has not started, the
phase is not ACTION, the team is unknown, the team has already submitted,
the delta `amount − currentPlacementForCell` exceeds the remaining
resources, or the amount is negative; and on every error the room (teams,
placements, board) is returned unchanged. -/
theorem place_resource_error_spec (room : Room) (tid cid : String) (amount : Int) :
    ((place_resource room tid cid amount).1.isSome ↔
      placeErrorCond room tid cid amount)
    ∧ (∀ e, (place_resource room tid cid amount).1 = some e →
        (place_resource room tid cid amount).2 = room) := by
  unfold place_resource placeErrorCond
  rcases hgs : room.game_state with _ | gs
  · simp
  · by_cases hph : gs.current_phase = GamePhase.action
    · rcases hft : findTeam room.teams tid with _ | t
      · simp [hph, hft]
      · by_cases hsub : t.has_submitted = true
        · simp [hph, hft, hsub]
        · by_cases hres : t.resources < amount - currentAmountFor t.placements cid
          · simp [hph, hft, hsub, hres]
          · by_cases hneg : amount < 0
            · simp [hph, hft, hsub, hres, hneg]
            · simp [hph, hft, hsub, hres, hneg]
    · simp [hph]

/-- Claim C5 (witness): a negative amount in a mid-ACTION room is rejected and the
room is returned exactly as it was. -/
theorem place_resource_error_spec_witness :
    (place_resource roomC5 "t1" "c" (-1)).1.isSome = true ∧
    (place_resource roomC5 "t1" "c" (-1)).2 = roomC5 := by
  have h := place_resource_error_spec roomC5 "t1" "c" (-1)
  exact ⟨h.1.mpr (Or.inr (Or.inr (Or.inr (Or.inr (Or.inr (by norm_num)))))),
         h.2 "Amount cannot be negative" (by decide)⟩

/-! ## C2 — the per-turn resource budget -/

lemma syncPlacementsToBoard_teams (r : Room) :
    (syncPlacementsToBoard r).teams = r.teams := by
  unfold syncPlacementsToBoard
  cases r.game_state <;> rfl

lemma findTeam_mem {l : List Team} {tid : String} {t : Team}
    (h : findTeam l tid = some t) : t ∈ l := by
  induction l with
  | nil => cases h
  | cons x xs ih =>
      by_cases hx : x.id = tid
      · rw [findTeam, if_pos hx] at h
        injection h with h
        exact h ▸ List.mem_cons_self x xs
      · rw [findTeam, if_neg hx] at h
        exact List.mem_cons_of_mem _ (ih h)

lemma mem_updateFirstTeam {l : List Team} {tid : String} {f : Team → Team}
    {t' : Team} (h : t' ∈ updateFirstTeam l tid f) :
    t' ∈ l ∨ ∃ t₀, findTeam l tid = some t₀ ∧ t' = f t₀ := by
  induction l with
  | nil => cases h
  | cons t ts ih =>
      by_cases ht : t.id = tid
      · rw [updateFirstTeam, if_pos ht] at h
        rcases List.mem_cons.mp h with h | h
        · exact Or.inr ⟨t, by rw [findTeam, if_pos ht], h⟩
        · exact Or.inl (List.mem_cons_of_mem _ h)
      · rw [updateFirstTeam, if_neg ht] at h
        rcases List.mem_cons.mp h with h | h
        · exact Or.inl (h ▸ List.mem_cons_self t ts)
        · rcases ih h with h | ⟨t₀, h1, h2⟩
          · exact Or.inl (List.mem_cons_of_mem _ h)
          · exact Or.inr ⟨t₀, by rw [findTeam, if_neg ht]; exact h1, h2⟩

lemma sum_setOrRemovePlacement (ps : List Placement) (cid : String)
    (amount : Int) (h : 0 ≤ amount) :
    ((setOrRemovePlacement ps cid amount).map (·.amount)).sum =
      (ps.map (·.amount)).sum + (amount - currentAmountFor ps cid) := by
  induction ps with
  | nil =>
      by_cases hpos : 0 < amount
      · simp [setOrRemovePlacement, currentAmountFor, findPlacement, hpos]
      · have h0 : amount = 0 := le_antisymm (not_lt.mp hpos) h
        simp [setOrRemovePlacement, currentAmountFor, findPlacement, hpos, h0]
  | cons p ps ih =>
      by_cases hc : p.cell_id = cid
      · by_cases h0 : amount = 0
        · simp [setOrRemovePlacement, currentAmountFor, findPlacement, hc, h0]
        · simp [setOrRemovePlacement, currentAmountFor, findPlacement, hc, h0]
          omega
      · simp only [setOrRemovePlacement, if_neg hc, List.map_cons,
          List.sum_cons, ih]
        have : currentAmountFor (p :: ps) cid = currentAmountFor ps cid := by
          simp [currentAmountFor, findPlacement, hc]
        omega

/-- The successful path of `place_resource`: all guards passed, and the
result is the board resync of the room with the found team's resources and
placement list updated. -/
lemma place_resource_ok_shape (room : Room) (tid cid : String) (amount : Int) :
    (place_resource room tid cid amount).1 = none →
    ∃ gs t, room.game_state = some gs ∧ gs.current_phase = GamePhase.action ∧
      findTeam room.teams tid = some t ∧ t.has_submitted = false ∧
      amount - currentAmountFor t.placements cid ≤ t.resources ∧ 0 ≤ amount ∧
      (place_resource room tid cid amount).2 =
        syncPlacementsToBoard
          { room with
            teams := updateFirstTeam room.teams tid (fun t' =>
              { t' with
                resources :=
                  t'.resources - (amount - currentAmountFor t.placements cid),
                placements := setOrRemovePlacement t'.placements cid amount }) } := by
  unfold place_resource
  rcases hgs : room.game_state with _ | gs
  · simp
  · by_cases hph : gs.current_phase = GamePhase.action
    · rcases hft : findTeam room.teams tid with _ | t
      · simp [hph, hft]
      · by_cases hsub : t.has_submitted = true
        · simp [hph, hft, hsub]
        · by_cases hres : t.resources < amount - currentAmountFor t.placements cid
          · simp [hph, hft, hsub, hres]
          · by_cases hneg : amount < 0
            · simp [hph, hft, hsub, hres, hneg]
            · intro _
              exact ⟨gs, t, rfl, hph, rfl,
                Bool.not_eq_true _ ▸ hsub, not_lt.mp hres, not_lt.mp hneg,
                by simp [hph, hft, hsub, hres, hneg]⟩
    · simp [hph]

/-- Claim C2 (counterexample): in a fresh mid-ACTION room, placing 8 of the 14
granted resources leaves `sum(placement.amount) = 8` while the team's
`resources` field — the REMAINING budget — is 6, so the claimed
`sum ≤ team.resources` fails right after a successful `placeResource`. -/
theorem placement_sum_exceeds_resources_field :
    (place_resource roomC2 "t1" "cell-0-0" 8).1 = none ∧
    ((findTeam (place_resource roomC2 "t1" "cell-0-0" 8).2.teams "t1").map
        (fun t => (sumPlacementAmounts t, t.resources))) = some (8, 6) ∧
    ¬ ((8 : Int) ≤ 6) := by
  refine ⟨by decide, by decide, by norm_num⟩

/-- Claim C2 (amended): after every successful `placeResource`, every team still
satisfies `sum(placement.amount) + team.resources = RESOURCES_PER_TURN` with
`team.resources ≥ 0` (assuming it held before, as the turn-start reset
establishes); hence the placements sum is bounded by the resources GRANTED
this turn, not by the mutated `resources` field. -/
theorem place_resource_budget (room : Room) (tid cid : String) (amount : Int)
    (hok : (place_resource room tid cid amount).1 = none)
    (hinv : ∀ t ∈ room.teams, teamBudgetInv t) :
    ∀ t' ∈ (place_resource room tid cid amount).2.teams,
      teamBudgetInv t' ∧ sumPlacementAmounts t' ≤ RESOURCES_PER_TURN := by
  obtain ⟨gs, t, hgs, hph, hft, hsub, hres, hamt, hshape⟩ :=
    place_resource_ok_shape room tid cid amount hok
  rw [hshape, syncPlacementsToBoard_teams]
  intro t' ht'
  have hbound : ∀ u, teamBudgetInv u → sumPlacementAmounts u ≤ RESOURCES_PER_TURN := by
    intro u hu
    rcases hu with ⟨h1, h2⟩
    omega
  rcases mem_updateFirstTeam ht' with hmem | ⟨t₀, hfind, rfl⟩
  · exact ⟨hinv t' hmem, hbound t' (hinv t' hmem)⟩
  · have ht₀ : t₀ = t := by
      rw [hfind] at hft
      injection hft
    subst ht₀
    have hinv₀ := hinv t₀ (findTeam_mem hfind)
    rcases hinv₀ with ⟨hr0, hsum⟩
    have hsum' :
        sumPlacementAmounts
          { t₀ with
            resources :=
              t₀.resources - (amount - currentAmountFor t₀.placements cid),
            placements := setOrRemovePlacement t₀.placements cid amount } =
          sumPlacementAmounts t₀ + (amount - currentAmountFor t₀.placements cid) :=
      sum_setOrRemovePlacement t₀.placements cid amount hamt
    refine ⟨⟨by simp only []; omega, ?_⟩, ?_⟩
    · simp only [hsum']
      omega
    · rw [hsum']
      unfold teamBudgetInv sumPlacementAmounts at *
      omega

/-- Claim C2 (witness): placing 5 in the fresh witness room preserves the budget
equation for the updated team (placements sum 5, remaining 9, 5 + 9 = 14). -/
theorem place_resource_budget_witness :
    teamBudgetInv { teamC2 with
      resources := 9,
      placements := [⟨"cell-0-0", 5⟩] } ∧
    sumPlacementAmounts { teamC2 with
      resources := 9,
      placements := [⟨"cell-0-0", 5⟩] } ≤ RESOURCES_PER_TURN :=
  place_resource_budget roomC2 "t1" "cell-0-0" 5 (by decide)
    (by intro t ht
        simp only [roomC2, List.mem_singleton] at ht
        subst ht
        exact ⟨by norm_num [teamC2], by decide⟩)
    { teamC2 with
      resources := 9,
      placements := [⟨"cell-0-0", 5⟩] }
    (by decide)

/-! ## C6 — phase transitions and the terminal early return -/

lemma processTurn_ok_game_state {r r' : Room} {tr : TurnResult}
    (h : processTurn r = .ok (r', tr)) : ∃ g, r'.game_state = some g := by
  unfold processTurn at h
  rcases hgs : r.game_state with _ | gs
  · rw [hgs] at h
    cases h
  · rw [hgs] at h
    simp only [] at h
    rcases hsc : scoreCells gs.board (r.teams.foldl (fun d t => dictSet d t.id 0) []) []
      with e | ⟨d1, cr⟩
    · rw [hsc] at h
      cases h
    · rw [hsc] at h
      simp only [] at h
      rcases hps : gs.project_status with _ | ps <;>
        rcases hev : gs.current_event with _ | ev <;>
        rw [hps, hev] at h
      · simp only [Except.ok.injEq, Prod.mk.injEq] at h
        exact ⟨_, by rw [← h.1]⟩
      · simp only [Except.ok.injEq, Prod.mk.injEq] at h
        exact ⟨_, by rw [← h.1]⟩
      · simp only [Except.ok.injEq, Prod.mk.injEq] at h
        exact ⟨_, by rw [← h.1]⟩
      · simp only [] at h
        rcases hadd : dictAddAll d1 (calculate_project_result ps.contributing_teams
            ps.min_total ps.min_teams).team_scores with e | d2
        · rw [hadd] at h
          cases h
        · rw [hadd] at h
          simp only [Except.ok.injEq, Prod.mk.injEq] at h
          exact ⟨_, by rw [← h.1]⟩

/-- Claim C6 (amended): every `advance_phase` transition except the two terminal
RESULT-phase returns stamps a fresh phase-start time and clears the pause
flag; the terminal transitions (index at zero, or turn cap reached, checked
after maintenance) return early with the old stamp and pause flag intact and
the status set to FINISHED. -/
theorem advance_phase_stamp (room : Room) (gs : GameState) (now : Nat)
    (r' : Room) (ph : GamePhase) (res : Option TurnResult)
    (hgs : room.game_state = some gs)
    (hok : advance_phase room now = .ok (r', ph, res)) :
    (¬ resultTerminal gs →
      ∃ gs', r'.game_state = some gs' ∧ gs'.phase_start_time = some now ∧
        gs'.is_paused = false)
    ∧ (resultTerminal gs →
      ∃ gs', r'.game_state = some gs' ∧
        gs'.phase_start_time = gs.phase_start_time ∧
        gs'.is_paused = gs.is_paused ∧ r'.status = RoomStatus.finished) := by
  unfold advance_phase at hok
  rw [hgs] at hok
  simp only [] at hok
  unfold resultTerminal
  revert hok
  cases hph : gs.current_phase <;> intro hok
  · -- EVENT → ACTION
    simp only [Except.ok.injEq, Prod.mk.injEq] at hok
    obtain ⟨h1, -, -⟩ := hok
    subst h1
    refine ⟨fun _ => ⟨_, rfl, rfl, rfl⟩, fun hT => ?_⟩
    exact absurd hT.1 (by simp)
  · -- ACTION → RESOLUTION (turn resolution runs first)
    simp only [] at hok
    rcases hpt : processTurn
        { room with
          game_state := some
            { gs with current_phase := .resolution,
                      phase_time_limit := PHASE_RESOLUTION_DURATION },
          teams := room.teams.map (fun t => { t with has_submitted := true }) }
      with e | ⟨room₂, result⟩
    · rw [hpt] at hok
      cases hok
    · rw [hpt] at hok
      simp only [Except.ok.injEq, Prod.mk.injEq] at hok
      obtain ⟨h1, -, -⟩ := hok
      subst h1
      obtain ⟨g2, hg2⟩ := processTurn_ok_game_state hpt
      refine ⟨fun _ => ?_, fun hT => absurd hT.1 (by simp)⟩
      refine ⟨{ g2 with phase_start_time := some now, is_paused := false }, ?_, rfl, rfl⟩
      simp [stampRoom, hg2]
  · -- RESOLUTION → RESULT
    simp only [Except.ok.injEq, Prod.mk.injEq] at hok
    obtain ⟨h1, -, -⟩ := hok
    subst h1
    refine ⟨fun _ => ⟨_, rfl, rfl, rfl⟩, fun hT => ?_⟩
    exact absurd hT.1 (by simp)
  · -- RESULT → next EVENT or terminal
    simp only [] at hok
    by_cases hz : isAnyZero (maintainIndices gs.national_indices) = true
    · rw [if_pos hz] at hok
      simp only [Except.ok.injEq, Prod.mk.injEq] at hok
      obtain ⟨h1, -, -⟩ := hok
      subst h1
      exact ⟨fun hnt => absurd ⟨rfl, Or.inl hz⟩ hnt,
             fun _ => ⟨_, rfl, rfl, rfl, rfl⟩⟩
    · rw [if_neg hz] at hok
      by_cases hmt : MAX_TURNS ≤ gs.current_turn
      · rw [if_pos hmt] at hok
        simp only [Except.ok.injEq, Prod.mk.injEq] at hok
        obtain ⟨h1, -, -⟩ := hok
        subst h1
        exact ⟨fun hnt => absurd ⟨rfl, Or.inr hmt⟩ hnt,
               fun _ => ⟨_, rfl, rfl, rfl, rfl⟩⟩
      · rw [if_neg hmt] at hok
        simp only [Except.ok.injEq, Prod.mk.injEq] at hok
        obtain ⟨h1, -, -⟩ := hok
        subst h1
        refine ⟨fun _ => ⟨_, rfl, rfl, rfl⟩, fun hT => ?_⟩
        rcases hT.2 with h | h
        · exact absurd h hz
        · exact absurd h hmt

/-- Claim C6 (counterexample): in `roomC6` (RESULT phase, paused, economy at 1)
the maintenance cost drives economy to 0, so `advance_phase` takes the
terminal return: the session finishes but the phase-start time stays at the
old tick 5 (not the current tick 99) and the pause flag is NOT cleared —
the claimed "every transition stamps and clears" fails on the terminal
RESULT transition. -/
theorem advance_phase_terminal_no_stamp :
    ((advance_phase roomC6 99).toOption.map (fun x =>
      (x.1.status, x.1.game_state.map (fun g => (g.phase_start_time, g.is_paused)),
       x.2.1))) = some (RoomStatus.finished, some (some 5, true), GamePhase.result) ∧
    (5 : Nat) ≠ 99 := by
  exact ⟨by decide, by norm_num⟩

/-- Claim C6 (witness): the EVENT → ACTION transition of `roomC6w` stamps the new
tick 7 and clears the pause flag. -/
theorem advance_phase_stamp_witness :
    ∃ gs', roomC6wAfter.game_state = some gs' ∧ gs'.phase_start_time = some 7 ∧
      gs'.is_paused = false :=
  (advance_phase_stamp roomC6w gsC6w 7 roomC6wAfter GamePhase.action none rfl
    (by rfl)).1 (by simp [resultTerminal, gsC6w])

/-! ## C7 — credential redaction by the state projector -/

/-- Claim C7 (counterexample): the host recipient receives the `GAME_STATE`
message completely unchanged — including the host credential and the team's
session credential — so "credentials are never transmitted to any recipient"
fails for the host role (and the projection is not credential-independent
for the host). -/
theorem filter_game_state_host_keeps_credentials :
    filter_game_state msgC7 hostInfoC7 = msgC7 ∧
    msgC7.data.host_token = some "host-secret" ∧
    msgC7.data.teams = some [{ id := "t1", session_token := some "team-secret",
                               placements := [⟨"cell-0-0", 3⟩],
                               resources := some 11 }] := by
  exact ⟨by decide, by decide, by decide⟩

/-- Claim C7 (amended): for `GAME_STATE` messages, a player or spectator recipient
never receives the host credential nor any team's session credential; the
host receives the message unchanged, credentials included. -/
theorem filter_game_state_redacts (msg : WsMessage) (info : ConnectionInfo)
    (hty : msg.type = "GAME_STATE") :
    ((info.role = some ClientRole.player ∨ info.role = some ClientRole.spectator) →
      (filter_game_state msg info).data.host_token = none ∧
      ∀ ts, (filter_game_state msg info).data.teams = some ts →
        ∀ tm ∈ ts, tm.session_token = none)
    ∧ (info.role = some ClientRole.host → filter_game_state msg info = msg) := by
  constructor
  · intro hrole
    have hnh : ¬ info.role = some ClientRole.host := by
      rcases hrole with h | h <;> simp [h]
    unfold filter_game_state
    rw [if_neg (by simp [hty]), if_neg hnh]
    refine ⟨rfl, ?_⟩
    intro ts hts tm htm
    rw [Option.map_eq_some'] at hts
    obtain ⟨ts₀, -, hmap⟩ := hts
    subst hmap
    obtain ⟨tm₀, -, htm₀⟩ := List.mem_map.mp htm
    subst htm₀
    split_ifs <;> rfl
  · intro hrole
    unfold filter_game_state
    rw [if_neg (by simp [hty]), if_pos hrole]

/-- Claim C7 (witness): the player recipient of `msgC7` gets neither the host
token nor the team's session token. -/
theorem filter_game_state_redacts_witness :
    (filter_game_state msgC7 playerInfoC7).data.host_token = none :=
  ((filter_game_state_redacts msgC7 playerInfoC7 rfl).1 (Or.inl rfl)).1

/-! ## C8 — the connection registry does NOT partition all state by session -/

/-- Claim C8 (counterexample): `mgrAB` and `mgrB` hold identical data for session
"B", yet authenticating session "B"'s host connection fails under `mgrAB`
(because session "A"'s host occupies the GLOBAL `_host_connection` slot) and
succeeds under `mgrB`: the outcome depends on another session's bindings. -/
theorem authenticate_cross_session_interference :
    dictLookup mgrAB.connections "B" = dictLookup mgrB.connections "B" ∧
    (authenticate mgrAB 2 "B" ClientRole.host none).1 =
      (false, "Host already connected") ∧
    (authenticate mgrB 2 "B" ClientRole.host none).1 = (true, "") := by
  exact ⟨by decide, by decide, by decide⟩

/-- Claim C8 (amended): the authentication outcome for a session depends only on
that session's own connection table TOGETHER WITH the global team-binding
map and the global host slot — the latter two are shared across sessions, so
independence holds only when those global bindings agree. -/
theorem authenticate_depends_on_room_and_globals
    (m₁ m₂ : ConnectionManager) (ws : Nat) (code : String)
    (role : ClientRole) (tid : Option String)
    (hc : dictLookup m₁.connections code = dictLookup m₂.connections code)
    (ht : m₁.team_connections = m₂.team_connections)
    (hh : m₁.host_connection = m₂.host_connection) :
    (authenticate m₁ ws code role tid).1 = (authenticate m₂ ws code role tid).1 := by
  unfold authenticate
  rw [hc, ht, hh]
  rcases dictLookup m₂.connections code with _ | conns
  · rfl
  · simp only []
    rcases dictLookup conns ws with _ | info
    · rfl
    · simp only []
      by_cases hrole : role = ClientRole.host
      · rw [if_pos hrole, if_pos hrole]
        rcases m₂.host_connection with _ | w <;> rfl
      · rw [if_neg hrole, if_neg hrole]
        by_cases hp : role = ClientRole.player ∧ teamIdTruthy tid = true
        · rw [if_pos hp, if_pos hp]
          rcases dictLookup m₂.team_connections (tid.getD "") with _ | w <;> rfl
        · rw [if_neg hp, if_neg hp]

/-- Claim C8 (witness): two managers agreeing on session "B"'s table and on both
global maps produce the same authentication outcome for session "B". -/
theorem authenticate_depends_witness :
    (authenticate mgrAB 2 "B" ClientRole.spectator none).1 =
      (authenticate { mgrAB with connections := mgrAB.connections } 2 "B"
        ClientRole.spectator none).1 :=
  authenticate_depends_on_room_and_globals mgrAB
    { mgrAB with connections := mgrAB.connections } 2 "B" ClientRole.spectator none
    (by decide) (by decide) (by decide)

end KienQuoc
